import Mathlib

set_option maxHeartbeats 1000000

namespace MCPServer

/-! Shallow embedding of the mcp-server-py repository (src/).

The handlers operate on JSON values exchanged with the Airtable gateway.
We model JSON values with `JVal` (numbers as integers: no claim depends on
non-integral field values), records as `Rec` (id / fields / createdTime),
and a gateway call as `GCall` (method, path, string parameters).  Handlers
are embedded as pure functions that also return the ordered list of gateway
calls they issue; the gateway's behaviour is supplied as an argument
(`Except` models a raised exception from a non-2xx response). -/

/-- JSON-like values, as handled by the Python code. -/
inductive JVal : Type where
  | null : JVal
  | s : String → JVal
  | i : Int → JVal
  | b : Bool → JVal
  | arr : List JVal → JVal
  | obj : List (String × JVal) → JVal

mutual

/-- Decidable structural equality for `JVal` (Python `==`; dict values are
compared in order here — the handlers compare whole field maps through
`dictEq` below, which is order-insensitive at the top level). -/
def decEqJ : (a b : JVal) → Decidable (a = b)
  | .null, .null => isTrue rfl
  | .s a, .s b =>
    match decEq a b with
    | isTrue h => isTrue (by rw [h])
    | isFalse h => isFalse (by intro he; cases he; exact h rfl)
  | .i a, .i b =>
    match decEq a b with
    | isTrue h => isTrue (by rw [h])
    | isFalse h => isFalse (by intro he; cases he; exact h rfl)
  | .b a, .b b =>
    match decEq a b with
    | isTrue h => isTrue (by rw [h])
    | isFalse h => isFalse (by intro he; cases he; exact h rfl)
  | .arr a, .arr b =>
    match decEqJList a b with
    | isTrue h => isTrue (by rw [h])
    | isFalse h => isFalse (by intro he; cases he; exact h rfl)
  | .obj a, .obj b =>
    match decEqJObj a b with
    | isTrue h => isTrue (by rw [h])
    | isFalse h => isFalse (by intro he; cases he; exact h rfl)
  | .null, .s _ => isFalse (by intro h; cases h)
  | .null, .i _ => isFalse (by intro h; cases h)
  | .null, .b _ => isFalse (by intro h; cases h)
  | .null, .arr _ => isFalse (by intro h; cases h)
  | .null, .obj _ => isFalse (by intro h; cases h)
  | .s _, .null => isFalse (by intro h; cases h)
  | .s _, .i _ => isFalse (by intro h; cases h)
  | .s _, .b _ => isFalse (by intro h; cases h)
  | .s _, .arr _ => isFalse (by intro h; cases h)
  | .s _, .obj _ => isFalse (by intro h; cases h)
  | .i _, .null => isFalse (by intro h; cases h)
  | .i _, .s _ => isFalse (by intro h; cases h)
  | .i _, .b _ => isFalse (by intro h; cases h)
  | .i _, .arr _ => isFalse (by intro h; cases h)
  | .i _, .obj _ => isFalse (by intro h; cases h)
  | .b _, .null => isFalse (by intro h; cases h)
  | .b _, .s _ => isFalse (by intro h; cases h)
  | .b _, .i _ => isFalse (by intro h; cases h)
  | .b _, .arr _ => isFalse (by intro h; cases h)
  | .b _, .obj _ => isFalse (by intro h; cases h)
  | .arr _, .null => isFalse (by intro h; cases h)
  | .arr _, .s _ => isFalse (by intro h; cases h)
  | .arr _, .i _ => isFalse (by intro h; cases h)
  | .arr _, .b _ => isFalse (by intro h; cases h)
  | .arr _, .obj _ => isFalse (by intro h; cases h)
  | .obj _, .null => isFalse (by intro h; cases h)
  | .obj _, .s _ => isFalse (by intro h; cases h)
  | .obj _, .i _ => isFalse (by intro h; cases h)
  | .obj _, .b _ => isFalse (by intro h; cases h)
  | .obj _, .arr _ => isFalse (by intro h; cases h)

/-- Decidable equality for lists of `JVal`. -/
def decEqJList : (a b : List JVal) → Decidable (a = b)
  | [], [] => isTrue rfl
  | [], _ :: _ => isFalse (by intro h; cases h)
  | _ :: _, [] => isFalse (by intro h; cases h)
  | x :: xs, y :: ys =>
    match decEqJ x y with
    | isFalse h => isFalse (by intro he; cases he; exact h rfl)
    | isTrue h =>
      match decEqJList xs ys with
      | isTrue h2 => isTrue (by rw [h, h2])
      | isFalse h2 => isFalse (by intro he; cases he; exact h2 rfl)

/-- Decidable equality for key/value lists. -/
def decEqJObj : (a b : List (String × JVal)) → Decidable (a = b)
  | [], [] => isTrue rfl
  | [], _ :: _ => isFalse (by intro h; cases h)
  | _ :: _, [] => isFalse (by intro h; cases h)
  | (k, x) :: xs, (k2, y) :: ys =>
    match decEq k k2 with
    | isFalse h => isFalse (by intro he; cases he; exact h rfl)
    | isTrue h =>
      match decEqJ x y with
      | isFalse h2 => isFalse (by intro he; cases he; exact h2 rfl)
      | isTrue h2 =>
        match decEqJObj xs ys with
        | isTrue h3 => isTrue (by rw [h, h2, h3])
        | isFalse h3 => isFalse (by intro he; cases he; exact h3 rfl)

end

instance : DecidableEq JVal := decEqJ

/-- Python truthiness (`if key_value:`): None, "", 0, False, [] and {} are falsy. -/
def truthy : JVal → Bool
  | .null => false
  | .s v => v != ""
  | .i v => v != 0
  | .b v => v
  | .arr vs => !vs.isEmpty
  | .obj kvs => !kvs.isEmpty

/-- The emptiness test used by the handlers: `value is None or value == ""`. -/
def isEmptyVal : JVal → Bool
  | .null => true
  | .s v => v == ""
  | _ => false

mutual

/-- Python `repr` of a value (used by `str` on lists/dicts).  Strings get
quotes with backslash/quote escaping; exotic escapes of non-printable
characters are not modelled (no claim depends on them). -/
def pyRepr : JVal → String
  | .null => "None"
  | .s v => "\x27" ++ ((v.replace "\\" "\\\\").replace "\x27" "\\\x27") ++ "\x27"
  | .i v => toString v
  | .b true => "True"
  | .b false => "False"
  | .arr vs => "[" ++ pyReprList vs ++ "]"
  | .obj kvs => "\x7b" ++ pyReprObj kvs ++ "\x7d"

/-- Comma-separated `repr`s of list elements. -/
def pyReprList : List JVal → String
  | [] => ""
  | [v] => pyRepr v
  | v :: rest => pyRepr v ++ ", " ++ pyReprList rest

/-- Comma-separated `repr`s of dict entries. -/
def pyReprObj : List (String × JVal) → String
  | [] => ""
  | [(k, v)] => pyRepr (.s k) ++ ": " ++ pyRepr v
  | (k, v) :: rest => pyRepr (.s k) ++ ": " ++ pyRepr v ++ ", " ++ pyReprObj rest

end

/-- Python `str` of a value. -/
def pyStr : JVal → String
  | .null => "None"
  | .s v => v
  | .i v => toString v
  | .b true => "True"
  | .b false => "False"
  | .arr vs => pyRepr (.arr vs)
  | .obj kvs => pyRepr (.obj kvs)

/-- Dictionary lookup (`d.get(k)` returning `None` as `Option.none`). -/
def lookupJ (kvs : List (String × JVal)) (k : String) : Option JVal :=
  (kvs.find? (fun kv => kv.1 == k)).map (·.2)

/-- Keys of a dictionary, in insertion order. -/
def keysOf (kvs : List (String × JVal)) : List String := kvs.map (·.1)

/-- Python dict equality on field maps: same keys, equal values key-by-key
(nested values compared structurally). -/
def dictEq (a b : List (String × JVal)) : Bool :=
  (keysOf a).all (fun k => lookupJ a k == lookupJ b k) &&
  (keysOf b).all (fun k => lookupJ a k == lookupJ b k)

/-- An Airtable record as returned by the gateway:
`{id, fields, createdTime}`. -/
structure Rec where
  id : String
  fields : List (String × JVal)
  createdTime : String
deriving DecidableEq

/-- Python `record.get("fields", {}).get(f)`, with the missing-field case as `null`
(Python's `None`). -/
def fieldOf (r : Rec) (f : String) : JVal := (lookupJ r.fields f).getD .null

/-- HTTP method of a gateway call. -/
inductive GMethod : Type where
  | get | post | patch | delete
deriving DecidableEq

/-- One gateway call: method, path, and request parameters (query params for
GET, rendered body irrelevant to the claims for writes). -/
structure GCall where
  method : GMethod
  path : String
  params : List (String × String) := []
deriving DecidableEq

/-- Outcome of one handler invocation, as eventually rendered into a
`TextContent` reply: either a plain text (used for validation errors and
"no records" messages) or a structured payload (the dict the handler
serializes with `json.dumps`). -/
inductive HRes (α : Type) : Type where
  | text : String → HRes α
  | payload : α → HRes α
deriving DecidableEq

/-- A handler reply is error-shaped when its text starts with "Error". -/
def isErrorText {α : Type} : HRes α → Bool
  | .text t => t.take 5 == "Error"
  | .payload _ => false

/-- Decidable equality for handler outcomes. -/
instance {e a : Type} [DecidableEq e] [DecidableEq a] : DecidableEq (Except e a) :=
  fun x y =>
    match x, y with
    | .error u, .error v =>
      match decEq u v with
      | isTrue h => isTrue (by rw [h])
      | isFalse h => isFalse (by intro he; cases he; exact h rfl)
    | .ok u, .ok v =>
      match decEq u v with
      | isTrue h => isTrue (by rw [h])
      | isFalse h => isFalse (by intro he; cases he; exact h rfl)
    | .error _, .ok _ => isFalse (by intro h; cases h)
    | .ok _, .error _ => isFalse (by intro h; cases h)

/-- Gateway environment: the response (or raised exception, from a non-2xx
status) for each call. -/
def GwEnv : Type := GCall → Except String JVal

/-- Path of the records collection endpoint. -/
def recordsPath (b t : String) : String :=
  "/bases/" ++ b ++ "/tables/" ++ t ++ "/records"

/-- Path of the batch record-creation endpoint. -/
def batchPath (b t : String) : String :=
  "/bases/" ++ b ++ "/tables/" ++ t ++ "/records/batch"

/-- Path of a single record's endpoint. -/
def recordPath (b t rid : String) : String :=
  "/bases/" ++ b ++ "/tables/" ++ t ++ "/records/" ++ rid

/-! ### Tool dispatcher (`server_refactored.py`, `MCPServerService._call_mcp_tool`,
and `server.py`, `call_tool`)

The handler map of `_call_mcp_tool` maps the fourteen tool names to handler
functions; the handlers' internals are irrelevant to dispatch, so the map is
parametrised by an implementation `impl` assigning each name its handler.  A
handler either returns a list of texts or raises (`Except.error`), which the
dispatcher converts to an `Error: ...` text. -/

/-- Argument bag of a tool invocation. -/
def Args : Type := List (String × JVal)

/-- The fourteen keys of `handler_map` in `_call_mcp_tool`, in source order. -/
def toolNames : List String :=
  ["list_tables", "get_records", "get_field_info", "create_record",
   "update_record", "delete_record", "batch_create_records",
   "batch_update_records", "analyze_table_data", "find_duplicates",
   "search_records", "create_metadata_table", "export_table_csv",
   "sync_tables"]

/-- The `handler_map` dict built over an implementation of the handlers. -/
def handlerMap (impl : String → Args → Except String (List String)) :
    List (String × (Args → Except String (List String))) :=
  toolNames.map (fun n => (n, impl n))

/-- Embeds `MCPServerService._call_mcp_tool`: look the name up in `handler_map`;
run the handler inside try/except; unknown names yield an
"Unknown tool: ..." text. -/
def callMcpTool (impl : String → Args → Except String (List String))
    (name : String) (args : Args) : List String :=
  match (handlerMap impl).find? (fun p => p.1 == name) with
  | some p =>
    match p.2 args with
    | .ok r => r
    | .error e => ["Error: " ++ e]
  | none => ["Unknown tool: " ++ name]

/-- The seven tool names of the legacy `server.py` if/elif chain, in order. -/
def legacyToolNames : List String :=
  ["list_tables", "get_records", "create_record", "update_record",
   "delete_record", "search_records", "create_metadata_table"]

/-- Embeds `server.py` `call_tool`: if/elif chain over `legacyToolNames` inside
try/except, with the same unknown-tool and error texts. -/
def call_tool (impl : String → Args → Except String (List String))
    (name : String) (args : Args) : List String :=
  if legacyToolNames.contains name then
    match impl name args with
    | .ok r => r
    | .error e => ["Error: " ++ e]
  else ["Unknown tool: " ++ name]

/-! ### Batch record creation (`record_handlers.py`,
`handle_batch_create_records`) -/

/-- Response dict of a successful batch creation. -/
structure BatchCreateResponse where
  message : String
  created_records : List JVal
  base_id : String
  table_id : String
deriving DecidableEq

/-- Python `result.get("records", [])`. -/
def recordsOfResult (v : JVal) : List JVal :=
  match v with
  | .obj kvs =>
    match lookupJ kvs "records" with
    | some (.arr rs) => rs
    | _ => []
  | _ => []

/-- Embeds `handle_batch_create_records`: validate non-empty and ≤ 10, then a single
batch POST.  Returns the issued gateway calls alongside the result. -/
def handle_batch_create_records (env : GwEnv) (base_id table_id : String)
    (records : List JVal) : List GCall × Except String (HRes BatchCreateResponse) :=
  if records.isEmpty then
    ([], .ok (.text "Error: \x27records\x27 must be a non-empty array"))
  else if records.length > 10 then
    ([], .ok (.text "Error: Maximum 10 records per batch operation (Airtable limit)"))
  else
    let c : GCall := { method := .post, path := batchPath base_id table_id }
    match env c with
    | .error e => ([c], .error e)
    | .ok result =>
      let created := recordsOfResult result
      ([c], .ok (.payload
        { message := "Successfully created " ++ toString created.length ++ " records"
          created_records := created
          base_id := base_id
          table_id := table_id }))

/-! ### Batch record update (`record_handlers.py`,
`handle_batch_update_records`) -/

/-- Python `isinstance(record, dict) and "id" in record and "fields" in record`. -/
def recHasIdFields : JVal → Bool
  | .obj kvs => (lookupJ kvs "id").isSome && (lookupJ kvs "fields").isSome
  | _ => false

/-- Python `record["id"]` (defined for the validated dict shape). -/
def recIdVal (v : JVal) : JVal :=
  match v with
  | .obj kvs => (lookupJ kvs "id").getD .null
  | _ => .null

/-- Python `record["fields"]` (defined for the validated dict shape). -/
def recFieldsVal (v : JVal) : JVal :=
  match v with
  | .obj kvs => (lookupJ kvs "fields").getD .null
  | _ => .null

/-- The PATCH call issued for one record of a batch update. -/
def patchCallFor (base_id table_id : String) (r : JVal) : GCall :=
  { method := .patch, path := recordPath base_id table_id (pyStr (recIdVal r)) }

/-- The per-record update loop: one PATCH per record, in order; successes and
failures are collected independently (the `try/except` around each PATCH). -/
def batchUpdateLoop (env : GwEnv) (base_id table_id : String) :
    List JVal → List GCall × List JVal × List (JVal × String)
  | [] => ([], [], [])
  | r :: rest =>
    let c := patchCallFor base_id table_id r
    let acc := batchUpdateLoop env base_id table_id rest
    match env c with
    | .ok result => (c :: acc.1, result :: acc.2.1, acc.2.2)
    | .error e => (c :: acc.1, acc.2.1, (recIdVal r, e) :: acc.2.2)

/-- Response dict of a completed batch update. -/
structure BatchUpdateResponse where
  message : String
  updated_records : List JVal
  errors : List (JVal × String)
  base_id : String
  table_id : String
deriving DecidableEq

/-- Embeds `handle_batch_update_records`: validate non-empty, ≤ 10 and
per-record shape, then one PATCH per record with independent
success/failure collection. -/
def handle_batch_update_records (env : GwEnv) (base_id table_id : String)
    (records : List JVal) : List GCall × Except String (HRes BatchUpdateResponse) :=
  if records.isEmpty then
    ([], .ok (.text "Error: \x27records\x27 must be a non-empty array"))
  else if records.length > 10 then
    ([], .ok (.text "Error: Maximum 10 records per batch operation (Airtable limit)"))
  else
    match records.findIdx? (fun r => !recHasIdFields r) with
    | some i =>
      ([], .ok (.text ("Error: Record " ++ toString i ++ " must have \x27id\x27 and \x27fields\x27 properties")))
    | none =>
      let out := batchUpdateLoop env base_id table_id records
      (out.1, .ok (.payload
        { message := "Batch update completed: " ++ toString out.2.1.length ++
            " success, " ++ toString out.2.2.length ++ " errors"
          updated_records := out.2.1
          errors := out.2.2
          base_id := base_id
          table_id := table_id }))

/-! ### Table sync preview (`utility_handlers.py`, `handle_sync_tables`)

The two GET responses are abstracted to their parsed `records` lists
(`result.get("records", [])`), typed as `Rec`. -/

/-- Gateway environment for handlers that consume record lists from GETs. -/
def GwRecEnv : Type := GCall → Except String (List Rec)

/-- Insert-or-replace on a string-keyed association list: Python dict
assignment (replacement keeps the original insertion position). -/
def upsertRec (idx : List (String × Rec)) (k : String) (r : Rec) :
    List (String × Rec) :=
  if idx.any (fun p => p.1 == k) then
    idx.map (fun p => if p.1 == k then (p.1, r) else p)
  else idx ++ [(k, r)]

/-- The `target_index` dict: index target records by stringified key-field value,
skipping records whose key value is falsy. -/
def buildTargetIndex (kf : String) (recs : List Rec) : List (String × Rec) :=
  recs.foldl
    (fun idx r =>
      if truthy (fieldOf r kf) then upsertRec idx (pyStr (fieldOf r kf)) r
      else idx) []

/-- Lookup in the target index. -/
def lookupRecIdx (idx : List (String × Rec)) (k : String) : Option Rec :=
  (idx.find? (fun p => p.1 == k)).map (·.2)

/-- One entry of `to_update`. -/
structure UpdateEntry where
  source_record : Rec
  target_record : Rec
  key_value : JVal
deriving DecidableEq

/-- The source-record classification loop of `handle_sync_tables`: returns
`(to_create, to_update, existing_keys)` (the latter a set, modelled as the
list of stringified truthy source keys). -/
def classifySource (kf : String) (idx : List (String × Rec)) :
    List Rec → List Rec × List UpdateEntry × List String
  | [] => ([], [], [])
  | r :: rest =>
    let acc := classifySource kf idx rest
    let kv := fieldOf r kf
    if truthy kv then
      let kstr := pyStr kv
      match lookupRecIdx idx kstr with
      | some tr =>
        if dictEq r.fields tr.fields then (acc.1, acc.2.1, kstr :: acc.2.2)
        else (acc.1, ⟨r, tr, kv⟩ :: acc.2.1, kstr :: acc.2.2)
      | none => (r :: acc.1, acc.2.1, kstr :: acc.2.2)
    else acc

/-- The `to_delete` list: records of the target index whose key was never seen among
the source keys, in index order. -/
def deletions (idx : List (String × Rec)) (existingKeys : List String) :
    List Rec :=
  (idx.filter (fun p => !existingKeys.contains p.1)).map (·.2)

/-- The `sync_summary` counts. -/
structure SyncSummary where
  source_records : Nat
  target_records : Nat
  records_to_create : Nat
  records_to_update : Nat
  records_to_delete : Nat
deriving DecidableEq

/-- The `changes` dict: first five of each change list, as rendered by the handler. -/
structure SyncChanges where
  create : List (JVal × List (String × JVal))
  update : List (JVal × String)
  delete : List (JVal × String)
deriving DecidableEq

/-- The advisory sync plan returned by `handle_sync_tables`. -/
structure SyncPlan where
  sync_summary : SyncSummary
  key_field : String
  dry_run : Bool
  changes : SyncChanges
  message : String
deriving DecidableEq

/-- The pure diffing part of `handle_sync_tables`, applied to the two
fetched record lists. -/
def syncPlanOf (kf : String) (dryRun : Bool)
    (sourceRecords targetRecords : List Rec) : SyncPlan :=
  let idx := buildTargetIndex kf targetRecords
  let cls := classifySource kf idx sourceRecords
  let toCreate := cls.1
  let toUpdate := cls.2.1
  let toDelete := deletions idx cls.2.2
  { sync_summary :=
      { source_records := sourceRecords.length
        target_records := targetRecords.length
        records_to_create := toCreate.length
        records_to_update := toUpdate.length
        records_to_delete := toDelete.length }
    key_field := kf
    dry_run := dryRun
    changes :=
      { create := (toCreate.take 5).map (fun r => (fieldOf r kf, r.fields))
        update := (toUpdate.take 5).map (fun u => (u.key_value, "Field differences detected"))
        delete := (toDelete.take 5).map (fun r => (fieldOf r kf, r.id)) }
    message :=
      if dryRun then
        "Dry run completed - no changes made. Set dry_run=false to execute sync."
      else
        "Sync feature not yet implemented for safety - use dry_run=true to preview changes." }

/-- The source GET issued by `handle_sync_tables`. -/
def syncSourceCall (source_base_id source_table_id : String) : GCall :=
  { method := .get, path := recordsPath source_base_id source_table_id
    params := [("max_records", "1000")] }

/-- The target GET issued by `handle_sync_tables`. -/
def syncTargetCall (target_base_id target_table_id : String) : GCall :=
  { method := .get, path := recordsPath target_base_id target_table_id
    params := [("max_records", "1000")] }

/-- Embeds `handle_sync_tables`: two record GETs, then the pure diff; no other
gateway call on any path. -/
def handle_sync_tables (env : GwRecEnv) (source_base_id source_table_id
    target_base_id target_table_id key_field : String) (dry_run : Bool) :
    List GCall × Except String SyncPlan :=
  match env (syncSourceCall source_base_id source_table_id) with
  | .error e => ([syncSourceCall source_base_id source_table_id], .error e)
  | .ok sourceRecords =>
    match env (syncTargetCall target_base_id target_table_id) with
    | .error e =>
      ([syncSourceCall source_base_id source_table_id,
        syncTargetCall target_base_id target_table_id], .error e)
    | .ok targetRecords =>
      ([syncSourceCall source_base_id source_table_id,
        syncTargetCall target_base_id target_table_id],
       .ok (syncPlanOf key_field dry_run sourceRecords targetRecords))

/-! ### Duplicate detection (`analysis_handlers.py`, `handle_find_duplicates`) -/

/-- Python `str.lower()` (character-wise lowercasing). -/
def pyLower (s : String) : String := ⟨s.data.map Char.toLower⟩

/-- Python `str.strip()`: drop whitespace from both ends. -/
def pyStrip (s : String) : String :=
  ⟨((s.data.dropWhile Char.isWhitespace).reverse.dropWhile Char.isWhitespace).reverse⟩

/-- Normalisation applied to each compared value
(`value.strip().lower()` for strings, identity otherwise). -/
def normVal : JVal → JVal
  | .s v => .s (pyLower (pyStrip v))
  | v => v

/-- Build the comparison key for one record: the tuple of normalised
compared values, or `none` when `ignore_empty` is set and some compared
field is empty (the record is then skipped). -/
def dupKeyOf (ignoreEmpty : Bool) (r : Rec) : List String → Option (List JVal)
  | [] => some []
  | f :: rest =>
    let v := fieldOf r f
    if ignoreEmpty && isEmptyVal v then none
    else
      match dupKeyOf ignoreEmpty r rest with
      | some vs => some (normVal v :: vs)
      | none => none

/-- Append a record to its key's group (Python dict of lists, insertion
ordered). -/
def addToGroups (gs : List (List JVal × List Rec)) (k : List JVal) (r : Rec) :
    List (List JVal × List Rec) :=
  if gs.any (fun g => g.1 == k) then
    gs.map (fun g => if g.1 == k then (g.1, g.2 ++ [r]) else g)
  else gs ++ [(k, [r])]

/-- The grouping loop of `handle_find_duplicates` over the fetched records. -/
def buildGroupsAux (ignoreEmpty : Bool) (flds : List String)
    (gs : List (List JVal × List Rec)) : List Rec → List (List JVal × List Rec)
  | [] => gs
  | r :: rest =>
    match dupKeyOf ignoreEmpty r flds with
    | none => buildGroupsAux ignoreEmpty flds gs rest
    | some k => buildGroupsAux ignoreEmpty flds (addToGroups gs k r) rest

/-- The `value_groups` dict for a record list. -/
def buildGroups (ignoreEmpty : Bool) (flds : List String) (recs : List Rec) :
    List (List JVal × List Rec) :=
  buildGroupsAux ignoreEmpty flds [] recs

/-- The members recorded under a key (empty when the key has no group). -/
def lookupGroup (gs : List (List JVal × List Rec)) (k : List JVal) : List Rec :=
  ((gs.find? (fun g => g.1 == k)).map (·.2)).getD []

/-- Groups with more than one member: the reported duplicate groups. -/
def duplicateGroups (gs : List (List JVal × List Rec)) :
    List (List JVal × List Rec) :=
  gs.filter (fun g => g.2.length > 1)

/-! ### Table data analysis (`analysis_handlers.py`,
`handle_analyze_table_data` and `_generate_data_quality_insights`)

Embedded from the post-fetch analysis portion (the schema/record GETs and
table lookup by id-or-name precede it); the type-specific extras
(text-length stats, numeric stats, select uniques) are not referenced by
any verified property and are omitted from `FieldStat`. -/

/-- A schema field (name and type). -/
structure SchemaField where
  name : String
  ftype : String
deriving DecidableEq

/-- Number of sampled records whose value for the field is neither None
nor the empty string (`len(values)` in the source's loop). -/
def countFilled (recs : List Rec) (fname : String) : Nat :=
  (recs.filter (fun r => !isEmptyVal (fieldOf r fname))).length

/-- Number of sampled records with an empty value for the field. -/
def countEmpty (recs : List Rec) (fname : String) : Nat :=
  (recs.filter (fun r => isEmptyVal (fieldOf r fname))).length

/-- Round half to even (Python's `round` on exact halves). -/
def roundHalfEven (q : ℚ) : ℤ :=
  if q - (⌊q⌋ : ℚ) < 1/2 then ⌊q⌋
  else if q - (⌊q⌋ : ℚ) > 1/2 then ⌊q⌋ + 1
  else if ⌊q⌋ % 2 = 0 then ⌊q⌋ else ⌊q⌋ + 1

/-- Python `round(x, 1)`: round to one decimal place. -/
def round1 (q : ℚ) : ℚ := (roundHalfEven (q * 10) : ℚ) / 10

/-- Per-field statistics reported by `analyze_table_data`. -/
structure FieldStat where
  field_name : String
  field_type : String
  total_records : Nat
  filled_count : Nat
  empty_count : Nat
  fill_rate : ℚ
deriving DecidableEq

/-- The statistics computed for one schema field over the sample. -/
def mkFieldStat (recs : List Rec) (f : SchemaField) : FieldStat :=
  let filled := countFilled recs f.name
  { field_name := f.name
    field_type := f.ftype
    total_records := recs.length
    filled_count := filled
    empty_count := countEmpty recs f.name
    fill_rate :=
      if recs.length > 0 then
        round1 ((filled : ℚ) / (recs.length : ℚ) * 100)
      else 0 }

/-- Insert-or-replace for the `field_stats` dict. -/
def upsertStat (l : List (String × FieldStat)) (k : String) (v : FieldStat) :
    List (String × FieldStat) :=
  if l.any (fun p => p.1 == k) then
    l.map (fun p => if p.1 == k then (p.1, v) else p)
  else l ++ [(k, v)]

/-- The `field_stats` dict: one entry per schema field, keyed by field name. -/
def buildFieldStats (recs : List Rec) (schemaFields : List SchemaField) :
    List (String × FieldStat) :=
  schemaFields.foldl (fun acc f => upsertStat acc f.name (mkFieldStat recs f)) []

/-- Names of fields with fill rate strictly below 50. -/
def lowFillFields (stats : List (String × FieldStat)) : List String :=
  (stats.filter (fun p => decide (p.2.fill_rate < 50))).map (·.1)

/-- Names of fields with fill rate exactly 0. -/
def unusedFields (stats : List (String × FieldStat)) : List String :=
  (stats.filter (fun p => p.2.fill_rate == 0)).map (·.1)

/-- Names of fields with fill rate exactly 100. -/
def completeFields (stats : List (String × FieldStat)) : List String :=
  (stats.filter (fun p => p.2.fill_rate == 100)).map (·.1)

/-- Embeds `_generate_data_quality_insights`. -/
def dataQualityInsights (stats : List (String × FieldStat)) : List String :=
  let low := lowFillFields stats
  let unused := unusedFields stats
  let complete := completeFields stats
  let insights :=
    (if !low.isEmpty then
      ["Low data completion: " ++ ", ".intercalate low ++ " have <50% fill rate"]
     else []) ++
    (if !unused.isEmpty then
      ["Unused fields: " ++ ", ".intercalate unused ++ " are completely empty"]
     else []) ++
    (if !complete.isEmpty then
      ["Complete data: " ++ ", ".intercalate complete ++ " have 100% fill rate"]
     else [])
  if insights.isEmpty then
    ["Data quality looks good - no major issues detected"]
  else insights

/-- The response assembled by `handle_analyze_table_data` (summary plus
field analysis and insights). -/
structure AnalyzeResponse where
  table_name : String
  records_analyzed : Nat
  total_fields : Nat
  avg_fill_rate : ℚ
  field_analysis : List (String × FieldStat)
  data_quality_insights : List String
deriving DecidableEq

/-- The analysis of a non-empty sample (the handler returns
"No records found in table" before this point when the sample is empty). -/
def analyzeTableData (tableName : String) (schemaFields : List SchemaField)
    (recs : List Rec) : AnalyzeResponse :=
  let stats := buildFieldStats recs schemaFields
  { table_name := tableName
    records_analyzed := recs.length
    total_fields := schemaFields.length
    avg_fill_rate :=
      if !stats.isEmpty then
        round1 ((stats.map (fun p => p.2.fill_rate)).sum / (stats.length : ℚ))
      else 0
    field_analysis := stats
    data_quality_insights := dataQualityInsights stats }

/-! ### CSV export (`utility_handlers.py`, `handle_export_table_csv`)

Python's `csv.writer` default dialect: comma delimiter, minimal quoting
with the double-quote character, `\r\n` line terminator. -/

/-- A cell must be quoted when it contains the delimiter, the quote
character, or a line-terminator character. -/
def csvNeedsQuote (s : String) : Bool :=
  s.data.any (fun c => c == ',' || c == '"' || c == '\r' || c == '\n')

/-- Double every quote character in a cell. -/
def csvEscapeQuotes (s : String) : String :=
  ⟨s.data.foldr (fun c acc => if c = '"' then '"' :: '"' :: acc else c :: acc) []⟩

/-- Minimal CSV quoting of one cell. -/
def csvQuote (s : String) : String :=
  if csvNeedsQuote s then "\"" ++ csvEscapeQuotes s ++ "\"" else s

/-- One CSV row. -/
def csvRow (cells : List String) : String :=
  ",".intercalate (cells.map csvQuote) ++ "\r\n"

/-- Rendering of one data cell: lists joined with ", ", missing field or
None rendered as the empty string, anything else via `str`. -/
def renderCell (v : Option JVal) : String :=
  match v with
  | none => ""
  | some (.arr vs) => ", ".intercalate (vs.map pyStr)
  | some .null => ""
  | some w => pyStr w

/-- Python `split` on a single newline character, over the char list. -/
def splitNl : List Char → List (List Char)
  | [] => [[]]
  | c :: rest =>
    if c = '\n' then [] :: splitNl rest
    else
      match splitNl rest with
      | h :: t => (c :: h) :: t
      | [] => [[c]]

/-- Python `csv_content.split("\n")`. -/
def pySplitNl (s : String) : List String := (splitNl s.data).map (fun l => ⟨l⟩)

/-- The exported field list: the explicit argument when it is a non-empty
list, otherwise (absent or empty: `if not fields:`) the field keys of the
first record. -/
def exportedFields (fieldsArg : Option (List String)) (records : List Rec) :
    List String :=
  let fs := fieldsArg.getD []
  if fs.isEmpty then
    match records with
    | [] => []
    | r :: _ => keysOf r.fields
  else fs

/-- The data row written for one record. -/
def csvDataRow (flds : List String) (r : Rec) : String :=
  csvRow ([r.id] ++ flds.map (fun f => renderCell (lookupJ r.fields f)) ++ [r.createdTime])

/-- The full CSV text: header row then one row per record. -/
def csvContent (flds : List String) (records : List Rec) : String :=
  csvRow (["Record ID"] ++ flds ++ ["Created Time"]) ++
  String.join (records.map (csvDataRow flds))

/-- The response assembled by `handle_export_table_csv`. -/
structure ExportCsvResponse where
  message : String
  table_id : String
  fields_exported : List String
  record_count : Nat
  csv_preview : String
  full_csv_data : String
deriving DecidableEq

/-- The record GET issued by `handle_export_table_csv`. -/
def exportCsvCall (base_id table_id : String) (view : Option String)
    (max_records : Nat) : GCall :=
  { method := .get, path := recordsPath base_id table_id
    params := [("max_records", toString max_records)] ++
      (match view with | some v => [("view", v)] | none => []) }

/-- Embeds `handle_export_table_csv`: fetch records, infer the field list if
needed, emit the CSV plus a six-line preview. -/
def handle_export_table_csv (env : GwRecEnv) (base_id table_id : String)
    (fieldsArg : Option (List String)) (view : Option String)
    (max_records : Nat) : List GCall × Except String (HRes ExportCsvResponse) :=
  match env (exportCsvCall base_id table_id view max_records) with
  | .error e => ([exportCsvCall base_id table_id view max_records], .error e)
  | .ok records =>
    if records.isEmpty then
      ([exportCsvCall base_id table_id view max_records],
       .ok (.text "No records found to export"))
    else
      ([exportCsvCall base_id table_id view max_records], .ok (.payload
        { message := "Exported " ++ toString records.length ++ " records to CSV"
          table_id := table_id
          fields_exported := exportedFields fieldsArg records
          record_count := records.length
          csv_preview := "\n".intercalate
            ((pySplitNl (csvContent (exportedFields fieldsArg records) records)).take 6)
          full_csv_data := csvContent (exportedFields fieldsArg records) records }))

/-! ### Search and filtered reads under the degraded security mode
(`utility_handlers.py`, `handle_search_records`; `table_handlers.py`,
`handle_get_records`)

`SECURITY_AVAILABLE` (an import-success flag from `config.py`) is passed
explicitly; the external sanitizers (`build_safe_search_formula`,
`validate_filter_formula`, absent from this repository) are parameters,
with `Except.error` modelling `AirtableFormulaInjectionError`. -/

/-- The fallback formula construction of `handle_search_records` when the
security module is unavailable (the source's "FALLBACK (INSECURE)" branch):
raw query and field names interpolated into the formula text. -/
def insecureSearchFormula (query : String) (fields : List String) : String :=
  if !fields.isEmpty then
    "OR(" ++ ", ".intercalate (fields.map (fun f =>
      "FIND(LOWER(\x27" ++ query ++ "\x27), LOWER(\x7b" ++ f ++ "\x7d)) > 0")) ++ ")"
  else
    "SEARCH(LOWER(\x27" ++ query ++ "\x27), LOWER(CONCATENATE(VALUES())))"

/-- Embeds `handle_search_records`: build the filter formula (sanitized when the
security module is available, the raw interpolation otherwise) and forward
it to the records GET. -/
def handle_search_records (securityAvailable : Bool)
    (buildSafe : String → List String → Except String String) (env : GwEnv)
    (base_id table_id query : String) (fields : List String)
    (max_records : Nat) : List GCall × Except String (HRes JVal) :=
  match (if securityAvailable then buildSafe query fields
         else .ok (insecureSearchFormula query fields)) with
  | .error e => ([], .ok (.text ("Security Error: " ++ e)))
  | .ok filterFormula =>
    let c : GCall :=
      { method := .get, path := recordsPath base_id table_id
        params := [("filter_by_formula", filterFormula),
                   ("max_records", toString max_records)] }
    match env c with
    | .error e => ([c], .error e)
    | .ok result => ([c], .ok (.payload result))

/-- Embeds `handle_get_records`: optional `max_records`/`view` parameters; a
user-supplied `filter_by_formula` is validated when the security module is
available and forwarded verbatim otherwise. -/
def handle_get_records (securityAvailable : Bool)
    (validate : String → Except String String) (env : GwEnv)
    (base_id table_id : String) (max_records : Option Nat)
    (view : Option String) (filter_by_formula : Option String) :
    List GCall × Except String (HRes JVal) :=
  let params0 :=
    (match max_records with | some m => [("max_records", toString m)] | none => []) ++
    (match view with | some v => [("view", v)] | none => [])
  let run := fun (params : List (String × String)) =>
    let c : GCall := { method := .get, path := recordsPath base_id table_id, params := params }
    match env c with
    | .error e => ([c], Except.error e)
    | .ok result => ([c], Except.ok (HRes.payload result))
  match filter_by_formula with
  | none => run params0
  | some f =>
    if securityAvailable then
      match validate f with
      | .ok sf => run (params0 ++ [("filter_by_formula", sf)])
      | .error e => ([], .ok (.text ("Security Error: " ++ e)))
    else run (params0 ++ [("filter_by_formula", f)])

/-! ### Concrete inputs used by the witness theorems -/

/-- Concrete gateway behaviour for the batch-update example: the PATCH for
record "r2" fails, every other call succeeds. -/
def envBatchUpdateEx : GwEnv := fun c =>
  if c.path == recordPath "b" "t" "r2" then .error "boom"
  else .ok (.obj [("id", .s "ok")])

/-- Three well-formed records for the batch-update example. -/
def recsBatchUpdateEx : List JVal :=
  [.obj [("id", .s "r1"), ("fields", .obj [])],
   .obj [("id", .s "r2"), ("fields", .obj [])],
   .obj [("id", .s "r3"), ("fields", .obj [])]]

/-- Concrete gateway behaviour for the sync example: every GET returns an
empty record list. -/
def envSyncEx : GwRecEnv := fun _ => .ok []

/-- Three records for the duplicate-detection example: "Bob", "bob " and an
empty name. -/
def recsDupEx : List Rec :=
  [⟨"rec1", [("Name", .s "Bob")], "t1"⟩,
   ⟨"rec2", [("Name", .s "bob ")], "t2"⟩,
   ⟨"rec3", [("Name", .s "")], "t3"⟩]

/-- Ten records for the analysis example: "Email" filled in three of them. -/
def recsAnalyzeEx : List Rec :=
  List.replicate 3 ⟨"f", [("Email", .s "x")], "t"⟩ ++
  List.replicate 7 ⟨"e", [], "t"⟩

/-- Concrete gateway behaviour for the CSV-export example: two records whose
field "A" holds a comma-bearing string. -/
def envCsvEx : GwRecEnv := fun _ => .ok
  [⟨"rec1", [("A", .s "x,y")], "t1"⟩, ⟨"rec2", [("A", .s "x,y")], "t2"⟩]

/-! ## Theorems -/

/-- Helper: `find?` over a list of keyed handlers. -/
theorem find?_map_key {β : Type} (l : List String) (f : String → β) (name : String) :
    ((l.map (fun n => (n, f n))).find? (fun p => p.1 == name)) =
      if name ∈ l then some (name, f name) else none := by
  induction l with
  | nil => simp
  | cons x xs ih =>
    by_cases hx : x = name
    · subst hx; simp [List.find?]
    · have hb : (x == name) = false := by simpa using hx
      have hor : (name = x ∨ name ∈ xs) ↔ name ∈ xs :=
        or_iff_right (fun h => hx h.symm)
      simp [List.find?, hb, ih, List.mem_cons, hor]

/-- C1: with the formula safety layer unavailable (SECURITY_AVAILABLE false),
`handle_search_records` builds the fallback formula by interpolating the raw
query text and forwards it to the gateway as `filter_by_formula` (shown both
for the generic branch and the field-specific branch), and
`handle_get_records` forwards the raw `filter_by_formula` argument verbatim —
the handlers do not refuse; the claim's required refusal does not hold. -/
theorem c1_degraded_mode_forwards_raw_query_code_bug :
    (handle_search_records false (fun _ _ => .ok "") (fun _ => .ok .null)
        "appB" "tblT" "x\x27) , evil" [] 50).1 =
      [{ method := .get, path := recordsPath "appB" "tblT"
         params := [("filter_by_formula",
           "SEARCH(LOWER(\x27" ++ "x\x27) , evil" ++ "\x27), LOWER(CONCATENATE(VALUES())))"),
           ("max_records", "50")] }] ∧
    (handle_search_records false (fun _ _ => .ok "") (fun _ => .ok .null)
        "appB" "tblT" "x\x27) , evil" ["Name"] 50).1 =
      [{ method := .get, path := recordsPath "appB" "tblT"
         params := [("filter_by_formula",
           "OR(FIND(LOWER(\x27" ++ "x\x27) , evil" ++ "\x27), LOWER(\x7bName\x7d)) > 0)"),
           ("max_records", "50")] }] ∧
    (handle_get_records false (fun _ => .ok "") (fun _ => .ok .null)
        "appB" "tblT" none none (some "RAW_FORMULA(\x27pwn\x27)")).1 =
      [{ method := .get, path := recordsPath "appB" "tblT"
         params := [("filter_by_formula", "RAW_FORMULA(\x27pwn\x27)")] }] := by
  refine ⟨?_, ?_, ?_⟩ <;> rfl

/-- C2: dispatching a name absent from the routing table returns the
"Unknown tool: {name}" text (no exception: the dispatcher is a total
function into reply texts), and a handler exception is converted at this
layer into an "Error: {message}" text; likewise for the legacy `server.py`
dispatcher. -/
theorem c2_dispatch_unknown_tool_and_handler_errors
    (impl legacyImpl : String → Args → Except String (List String))
    (name : String) (args : Args) :
    (name ∉ toolNames → callMcpTool impl name args = ["Unknown tool: " ++ name]) ∧
    (∀ e, name ∈ toolNames → impl name args = .error e →
      callMcpTool impl name args = ["Error: " ++ e]) ∧
    (name ∉ legacyToolNames → call_tool legacyImpl name args = ["Unknown tool: " ++ name]) ∧
    (∀ e, name ∈ legacyToolNames → legacyImpl name args = .error e →
      call_tool legacyImpl name args = ["Error: " ++ e]) := by
  refine ⟨?_, ?_, ?_, ?_⟩
  · intro h
    unfold callMcpTool handlerMap
    rw [find?_map_key, if_neg h]
  · intro e hmem herr
    unfold callMcpTool handlerMap
    rw [find?_map_key, if_pos hmem]
    simp [herr]
  · intro h
    unfold call_tool
    rw [if_neg (by simpa using h)]
  · intro e hmem herr
    unfold call_tool
    rw [if_pos (by simpa using hmem)]
    simp [herr]

/-- C2 witness: a concrete unknown name and a concrete raising handler. -/
theorem c2_dispatch_witness :
    callMcpTool (fun _ _ => .ok ["ok"]) "nonexistent_tool" [] =
      ["Unknown tool: nonexistent_tool"] ∧
    callMcpTool (fun _ _ => .error "boom") "list_tables" [] = ["Error: boom"] :=
  ⟨(c2_dispatch_unknown_tool_and_handler_errors (fun _ _ => .ok ["ok"])
      (fun _ _ => .ok []) "nonexistent_tool" []).1 (by decide),
   (c2_dispatch_unknown_tool_and_handler_errors (fun _ _ => .error "boom")
      (fun _ _ => .ok []) "list_tables" []).2.1 "boom" (by decide) rfl⟩

/-- C8: `batch_create_records` rejects an empty or >10 batch with an
error-shaped text and zero gateway calls, and issues exactly one batch POST
for 1 to 10 records. -/
theorem c8_batch_create_size_validation (env : GwEnv) (b t : String)
    (records : List JVal) :
    (records = [] →
      handle_batch_create_records env b t records =
        ([], .ok (.text "Error: \x27records\x27 must be a non-empty array")) ∧
      ∀ msg, (handle_batch_create_records env b t records).2 = .ok (.text msg) →
        isErrorText (HRes.text (α := BatchCreateResponse) msg) = true) ∧
    (records.length > 10 →
      handle_batch_create_records env b t records =
        ([], .ok (.text "Error: Maximum 10 records per batch operation (Airtable limit)")) ∧
      ∀ msg, (handle_batch_create_records env b t records).2 = .ok (.text msg) →
        isErrorText (HRes.text (α := BatchCreateResponse) msg) = true) ∧
    (records ≠ [] → records.length ≤ 10 →
      (handle_batch_create_records env b t records).1 =
        [{ method := .post, path := batchPath b t, params := [] }]) := by
  refine ⟨?_, ?_, ?_⟩
  · intro h
    subst h
    refine ⟨rfl, ?_⟩
    intro msg hmsg
    simp [handle_batch_create_records] at hmsg
    rw [← hmsg]
    decide
  · intro h
    have hne : records.isEmpty = false := by
      cases records with
      | nil => simp at h
      | cons x xs => rfl
    refine ⟨?_, ?_⟩
    · unfold handle_batch_create_records
      rw [hne]
      simp [h]
    · intro msg hmsg
      unfold handle_batch_create_records at hmsg
      rw [hne] at hmsg
      simp [h] at hmsg
      rw [← hmsg]
      decide
  · intro h1 h2
    have hne : records.isEmpty = false := by
      cases records with
      | nil => simp at h1
      | cons x xs => rfl
    have hle : ¬ records.length > 10 := by omega
    unfold handle_batch_create_records
    rw [hne]
    simp only [Bool.false_eq_true, if_false, hle, if_neg hle]
    cases env { method := .post, path := batchPath b t, params := [] } <;> rfl

/-- C8 witness: eleven records are rejected with no gateway call; two
records issue exactly one batch POST. -/
theorem c8_batch_create_witness :
    (handle_batch_create_records (fun _ => .ok .null) "b" "t"
        (List.replicate 11 (JVal.obj [])) =
      ([], .ok (.text "Error: Maximum 10 records per batch operation (Airtable limit)"))) ∧
    (handle_batch_create_records (fun _ => .ok .null) "b" "t"
        [JVal.obj [], JVal.obj []]).1 =
      [{ method := .post, path := batchPath "b" "t", params := [] }] :=
  ⟨((c8_batch_create_size_validation (fun _ => .ok .null) "b" "t"
      (List.replicate 11 (JVal.obj []))).2.1 (by decide)).1,
   (c8_batch_create_size_validation (fun _ => .ok .null) "b" "t"
      [JVal.obj [], JVal.obj []]).2.2 (by decide) (by decide)⟩

/-- Helper: `findIdx?` finds nothing when the predicate never holds. -/
theorem findIdx?_none_of_all {α : Type} (p : α → Bool) (l : List α)
    (h : ∀ a ∈ l, p a = false) : ∀ i, l.findIdx? p i = none := by
  induction l with
  | nil => intro i; rfl
  | cons x xs ih =>
    intro i
    show (if p x then some i else xs.findIdx? p (i + 1)) = none
    rw [h x (by simp)]
    simp only [Bool.false_eq_true, if_false]
    exact ih (fun a ha => h a (by simp [ha])) (i + 1)

/-- Helper: the batch-update loop issues one PATCH per record in order and
collects successes and failures independently. -/
theorem batchUpdateLoop_spec (env : GwEnv) (b t : String) (records : List JVal) :
    batchUpdateLoop env b t records =
      (records.map (patchCallFor b t),
       records.filterMap (fun r => (env (patchCallFor b t r)).toOption),
       records.filterMap (fun r =>
         match env (patchCallFor b t r) with
         | .error e => some (recIdVal r, e)
         | .ok _ => none)) := by
  induction records with
  | nil => rfl
  | cons r rest ih =>
    simp only [batchUpdateLoop, ih, List.map_cons, List.filterMap_cons]
    cases henv : env (patchCallFor b t r) <;> simp [Except.toOption, henv]

/-- C3: a valid batch update of n ≤ 10 well-formed records issues exactly one
PATCH per record in list order regardless of failures; `updated_records`
collects exactly the successful PATCH results and `errors` one
(record id, message) entry per failed PATCH. -/
theorem c3_batch_update_independent_patches (env : GwEnv) (b t : String)
    (records : List JVal) (h1 : records ≠ []) (h2 : records.length ≤ 10)
    (h3 : ∀ r ∈ records, recHasIdFields r = true) :
    handle_batch_update_records env b t records =
      (records.map (patchCallFor b t),
       .ok (.payload
         { message := "Batch update completed: " ++
             toString (records.filterMap
               (fun r => (env (patchCallFor b t r)).toOption)).length ++
             " success, " ++
             toString (records.filterMap (fun r =>
               match env (patchCallFor b t r) with
               | .error e => some (recIdVal r, e)
               | .ok _ => none)).length ++ " errors"
           updated_records :=
             records.filterMap (fun r => (env (patchCallFor b t r)).toOption)
           errors := records.filterMap (fun r =>
             match env (patchCallFor b t r) with
             | .error e => some (recIdVal r, e)
             | .ok _ => none)
           base_id := b
           table_id := t })) := by
  have hne : records.isEmpty = false := by
    cases records with
    | nil => simp at h1
    | cons x xs => rfl
  have hgt : ¬ records.length > 10 := by omega
  have hidx : records.findIdx? (fun r => !recHasIdFields r) = none :=
    findIdx?_none_of_all _ _ (fun a ha => by simp [h3 a ha]) 0
  unfold handle_batch_update_records
  simp only [hne, Bool.false_eq_true, if_false]
  rw [if_neg hgt, hidx]
  rw [batchUpdateLoop_spec]

/-- C3 witness: record 2 of 3 fails; all three PATCHes are attempted, two
successes and one error are reported. -/
theorem c3_batch_update_witness :
    (handle_batch_update_records envBatchUpdateEx "b" "t" recsBatchUpdateEx).1.length = 3 ∧
    (handle_batch_update_records envBatchUpdateEx "b" "t" recsBatchUpdateEx).2 =
      .ok (.payload
        { message := "Batch update completed: 2 success, 1 errors"
          updated_records := [.obj [("id", JVal.s "ok")], .obj [("id", JVal.s "ok")]]
          errors := [(JVal.s "r2", "boom")]
          base_id := "b"
          table_id := "t" }) := by
  have h := c3_batch_update_independent_patches envBatchUpdateEx "b" "t"
    recsBatchUpdateEx (by decide) (by decide) (by decide)
  rw [h]
  exact ⟨by decide, by decide⟩

/-- C5: `sync_tables` only ever issues GET calls (at most the two record
fetches) on every path including `dry_run = false`; on success it returns the
advisory plan, whose message for `dry_run = false` states that sync execution
is not implemented. -/
theorem c5_sync_tables_never_writes (env : GwRecEnv) (sb st tb tt kf : String)
    (dr : Bool) :
    (∀ c ∈ (handle_sync_tables env sb st tb tt kf dr).1, c.method = .get) ∧
    (∀ srcRecs tgtRecs,
      env (syncSourceCall sb st) = .ok srcRecs →
      env (syncTargetCall tb tt) = .ok tgtRecs →
      handle_sync_tables env sb st tb tt kf dr =
        ([syncSourceCall sb st, syncTargetCall tb tt],
         .ok (syncPlanOf kf dr srcRecs tgtRecs))) ∧
    (dr = false → ∀ plan, (handle_sync_tables env sb st tb tt kf dr).2 = .ok plan →
      plan.message =
        "Sync feature not yet implemented for safety - use dry_run=true to preview changes.") := by
  refine ⟨?_, ?_, ?_⟩
  · intro c hc
    unfold handle_sync_tables at hc
    cases h1 : env (syncSourceCall sb st) with
    | error e =>
      rw [h1] at hc
      simp at hc
      subst hc
      rfl
    | ok src =>
      rw [h1] at hc
      cases h2 : env (syncTargetCall tb tt) with
      | error e =>
        rw [h2] at hc
        simp at hc
        rcases hc with hc | hc <;> (subst hc; rfl)
      | ok tgt =>
        rw [h2] at hc
        simp at hc
        rcases hc with hc | hc <;> (subst hc; rfl)
  · intro src tgt h1 h2
    unfold handle_sync_tables
    rw [h1, h2]
  · intro hdr plan hplan
    subst hdr
    unfold handle_sync_tables at hplan
    cases h1 : env (syncSourceCall sb st) with
    | error e => rw [h1] at hplan; simp at hplan
    | ok src =>
      rw [h1] at hplan
      cases h2 : env (syncTargetCall tb tt) with
      | error e => rw [h2] at hplan; simp at hplan
      | ok tgt =>
        rw [h2] at hplan
        simp at hplan
        rw [← hplan]
        simp [syncPlanOf]

/-- C5 witness: a concrete run with `dry_run = false` performs the two GETs
only and reports that execution is unsupported. -/
theorem c5_sync_tables_witness :
    handle_sync_tables envSyncEx "sb" "st" "tb" "tt" "K" false =
      ([syncSourceCall "sb" "st", syncTargetCall "tb" "tt"],
       .ok (syncPlanOf "K" false [] [])) ∧
    (∀ c ∈ (handle_sync_tables envSyncEx "sb" "st" "tb" "tt" "K" false).1,
      c.method = .get) ∧
    (syncPlanOf "K" false [] ([] : List Rec)).message =
      "Sync feature not yet implemented for safety - use dry_run=true to preview changes." := by
  have h := c5_sync_tables_never_writes envSyncEx "sb" "st" "tb" "tt" "K" false
  refine ⟨h.2.1 [] [] rfl rfl, h.1, ?_⟩
  exact h.2.2 rfl (syncPlanOf "K" false [] []) (by rw [h.2.1 [] [] rfl rfl])

/-- Helper: the classification loop of `sync_tables`, characterised by
filters over the source records. -/
theorem classifySource_spec (kf : String) (idx : List (String × Rec))
    (srcRecs : List Rec) :
    classifySource kf idx srcRecs =
      (srcRecs.filter (fun r => truthy (fieldOf r kf) &&
         (lookupRecIdx idx (pyStr (fieldOf r kf))).isNone),
       srcRecs.filterMap (fun r =>
         if truthy (fieldOf r kf) then
           match lookupRecIdx idx (pyStr (fieldOf r kf)) with
           | some tr =>
             if dictEq r.fields tr.fields then none
             else some ⟨r, tr, fieldOf r kf⟩
           | none => none
         else none),
       (srcRecs.filter (fun r => truthy (fieldOf r kf))).map
         (fun r => pyStr (fieldOf r kf))) := by
  induction srcRecs with
  | nil => rfl
  | cons r rest ih =>
    simp only [classifySource, ih]
    by_cases ht : truthy (fieldOf r kf)
    · cases hl : lookupRecIdx idx (pyStr (fieldOf r kf)) with
      | some tr =>
        by_cases hd : dictEq r.fields tr.fields
        · simp [ht, hl, hd, List.filter_cons, List.filterMap_cons]
        · simp [ht, hl, hd, List.filter_cons, List.filterMap_cons]
      | none => simp [ht, hl, List.filter_cons, List.filterMap_cons]
    · simp [ht, List.filter_cons, List.filterMap_cons]

/-- Helper: `filterMap` and the `isSome` filter have the same length. -/
theorem length_filterMap_eq {α β : Type} (g : α → Option β) (l : List α) :
    (l.filterMap g).length = (l.filter (fun a => (g a).isSome)).length := by
  induction l with
  | nil => rfl
  | cons x xs ih =>
    cases hx : g x <;>
      simp [List.filterMap_cons, hx, List.filter_cons, ih]

/-- Helper: two Booleans are equal when they are equi-true. -/
theorem bool_eq_of_iff {x y : Bool} (h : x = true ↔ y = true) : x = y := by
  cases x <;> cases y <;> simp_all

/-- C4: the sync plan counts a source record with truthy key as a creation
exactly when its stringified key is absent from the target index, as an
update exactly when the key is present and the field maps differ, and counts
a deletion for each index entry whose key equals no source key. -/
theorem c4_sync_classification (kf : String) (dr : Bool)
    (srcRecs tgtRecs : List Rec) :
    (syncPlanOf kf dr srcRecs tgtRecs).sync_summary.records_to_create =
      (srcRecs.filter (fun r => truthy (fieldOf r kf) &&
        (lookupRecIdx (buildTargetIndex kf tgtRecs) (pyStr (fieldOf r kf))).isNone)).length ∧
    (syncPlanOf kf dr srcRecs tgtRecs).sync_summary.records_to_update =
      (srcRecs.filter (fun r => truthy (fieldOf r kf) &&
        (match lookupRecIdx (buildTargetIndex kf tgtRecs) (pyStr (fieldOf r kf)) with
         | some tr => !dictEq r.fields tr.fields
         | none => false))).length ∧
    (syncPlanOf kf dr srcRecs tgtRecs).sync_summary.records_to_delete =
      ((buildTargetIndex kf tgtRecs).filter (fun p =>
        !srcRecs.any (fun r => truthy (fieldOf r kf) &&
          (pyStr (fieldOf r kf) == p.1)))).length := by
  refine ⟨?_, ?_, ?_⟩
  · simp only [syncPlanOf, classifySource_spec]
  · simp only [syncPlanOf, classifySource_spec]
    rw [length_filterMap_eq]
    congr 1
    apply List.filter_congr
    intro r _
    by_cases ht : truthy (fieldOf r kf)
    · cases hl : lookupRecIdx (buildTargetIndex kf tgtRecs) (pyStr (fieldOf r kf)) with
      | some tr =>
        by_cases hd : dictEq r.fields tr.fields <;> simp [ht, hl, hd]
      | none => simp [ht, hl]
    · simp [ht]
  · simp only [syncPlanOf, classifySource_spec, deletions, List.length_map]
    congr 1
    apply List.filter_congr
    intro p _
    congr 1
    apply bool_eq_of_iff
    simp only [List.contains_eq_any_beq, List.any_eq_true, List.mem_map,
      List.mem_filter]
    constructor
    · rintro ⟨k, ⟨r, ⟨hr, hrt⟩, rfl⟩, hbeq⟩
      exact ⟨r, hr, by simp [hrt, beq_iff_eq] at hbeq ⊢; exact hbeq.symm⟩
    · rintro ⟨r, hr, hb⟩
      have hb2 : truthy (fieldOf r kf) = true ∧ pyStr (fieldOf r kf) = p.1 := by
        simpa using hb
      exact ⟨pyStr (fieldOf r kf), ⟨r, ⟨hr, hb2.1⟩, rfl⟩, by simp [hb2.2]⟩

/-- Helper: membership in `upsertRec` means an old entry or the new pair. -/
theorem upsertRec_mem (idx : List (String × Rec)) (k : String) (r : Rec) :
    ∀ p ∈ upsertRec idx k r, p ∈ idx ∨ p = (k, r) := by
  intro p hp
  unfold upsertRec at hp
  by_cases h : idx.any (fun q => q.1 == k)
  · rw [if_pos h] at hp
    rcases List.mem_map.mp hp with ⟨q, hq, hqe⟩
    by_cases hqk : (q.1 == k) = true
    · right
      rw [if_pos hqk] at hqe
      rw [← hqe]
      rw [beq_iff_eq.mp hqk]
    · left
      rw [if_neg hqk] at hqe
      rw [← hqe]
      exact hq
  · rw [if_neg h] at hp
    rcases List.mem_append.mp hp with hp | hp
    · exact Or.inl hp
    · simp at hp
      exact Or.inr hp

/-- Helper: every entry of the target index has a truthy key field and is
keyed by its stringified value. -/
theorem buildTargetIndex_mem (kf : String) (tgt : List Rec) :
    ∀ p ∈ buildTargetIndex kf tgt,
      truthy (fieldOf p.2 kf) = true ∧ p.1 = pyStr (fieldOf p.2 kf) := by
  have hgen : ∀ (l : List Rec) (init : List (String × Rec)),
      (∀ p ∈ init, truthy (fieldOf p.2 kf) = true ∧ p.1 = pyStr (fieldOf p.2 kf)) →
      ∀ p ∈ l.foldl
        (fun idx r =>
          if truthy (fieldOf r kf) then upsertRec idx (pyStr (fieldOf r kf)) r
          else idx) init,
        truthy (fieldOf p.2 kf) = true ∧ p.1 = pyStr (fieldOf p.2 kf) := by
    intro l
    induction l with
    | nil => intro init h p hp; exact h p hp
    | cons r rest ih =>
      intro init hinit p hp
      rw [List.foldl_cons] at hp
      refine ih _ ?_ p hp
      intro q hq
      by_cases ht : truthy (fieldOf r kf)
      · rw [if_pos ht] at hq
        rcases upsertRec_mem init (pyStr (fieldOf r kf)) r q hq with hq' | hq'
        · exact hinit q hq'
        · rw [hq']
          exact ⟨ht, rfl⟩
      · rw [if_neg ht] at hq
        exact hinit q hq
  exact hgen tgt [] (by simp)

/-- Helper: a successful index lookup returns a member of the index. -/
theorem lookupRecIdx_mem (idx : List (String × Rec)) (k : String) (tr : Rec)
    (h : lookupRecIdx idx k = some tr) : ∃ p ∈ idx, p.2 = tr := by
  unfold lookupRecIdx at h
  cases hf : idx.find? (fun p => p.1 == k) with
  | none => rw [hf] at h; simp at h
  | some p =>
    rw [hf] at h
    simp at h
    exact ⟨p, List.mem_of_find?_eq_some hf, h⟩

/-- C10: a target record whose key-field value is falsy is omitted from the
target index, hence never counted as an update target and never counted as a
deletion — while the reported `target_records` total still counts it. -/
theorem c10_sync_falsy_key_target_ignored (kf : String) (dr : Bool)
    (srcRecs tgtRecs : List Rec) (r : Rec) (_hr : r ∈ tgtRecs)
    (hk : truthy (fieldOf r kf) = false) :
    (r ∉ deletions (buildTargetIndex kf tgtRecs)
        (classifySource kf (buildTargetIndex kf tgtRecs) srcRecs).2.2) ∧
    (∀ u ∈ (classifySource kf (buildTargetIndex kf tgtRecs) srcRecs).2.1,
      u.target_record ≠ r) ∧
    (syncPlanOf kf dr srcRecs tgtRecs).sync_summary.target_records =
      tgtRecs.length := by
  refine ⟨?_, ?_, rfl⟩
  · intro hdel
    unfold deletions at hdel
    rcases List.mem_map.mp hdel with ⟨p, hp, hpe⟩
    have hmem := (buildTargetIndex_mem kf tgtRecs) p (List.mem_filter.mp hp).1
    rw [hpe] at hmem
    rw [hmem.1] at hk
    exact Bool.true_eq_false.mp hk
  · intro u hu hue
    rw [classifySource_spec] at hu
    rcases List.mem_filterMap.mp hu with ⟨r0, _, hf⟩
    by_cases ht : truthy (fieldOf r0 kf)
    · cases hl : lookupRecIdx (buildTargetIndex kf tgtRecs) (pyStr (fieldOf r0 kf)) with
      | none => simp [ht, hl] at hf
      | some tr =>
        by_cases hd : dictEq r0.fields tr.fields
        · simp [ht, hl, hd] at hf
        · simp [ht, hl, hd] at hf
          have hutr : u.target_record = tr := by rw [← hf]
          rcases lookupRecIdx_mem _ _ tr hl with ⟨p, hp, hpe⟩
          have hmem := (buildTargetIndex_mem kf tgtRecs) p hp
          rw [hpe] at hmem
          rw [hutr] at hue
          rw [hue] at hmem
          rw [hmem.1] at hk
          exact Bool.true_eq_false.mp hk
    · simp [ht] at hf

/-- C10 witness: a target record keyed by the empty string is not deleted
even though its key is absent from the (empty) source, yet it is counted in
`target_records`. -/
theorem c10_sync_falsy_key_witness :
    (⟨"t1", [("K", JVal.s "")], "now"⟩ : Rec) ∉
      deletions (buildTargetIndex "K" [⟨"t1", [("K", JVal.s "")], "now"⟩])
        (classifySource "K" (buildTargetIndex "K" [⟨"t1", [("K", JVal.s "")], "now"⟩]) []).2.2 ∧
    (syncPlanOf "K" true [] [⟨"t1", [("K", JVal.s "")], "now"⟩]).sync_summary.target_records = 1 := by
  have h := c10_sync_falsy_key_target_ignored "K" true []
    [⟨"t1", [("K", JVal.s "")], "now"⟩] ⟨"t1", [("K", JVal.s "")], "now"⟩
    (by decide) (by decide)
  exact ⟨h.1, h.2.2⟩

/-- Helper: `lookupGroup` on an empty group list. -/
theorem lookupGroup_nil (k : List JVal) : lookupGroup [] k = [] := rfl

/-- Helper: `lookupGroup` on a cons. -/
theorem lookupGroup_cons (a : List JVal) (b : List Rec)
    (rest : List (List JVal × List Rec)) (k2 : List JVal) :
    lookupGroup ((a, b) :: rest) k2 = if a == k2 then b else lookupGroup rest k2 := by
  unfold lookupGroup
  by_cases h : (a == k2) = true <;> simp [List.find?, h]

/-- Helper: a map that fixes every element is the identity. -/
theorem map_eq_self_of {α : Type} (l : List α) (f : α → α)
    (h : ∀ x ∈ l, f x = x) : l.map f = l := by
  induction l with
  | nil => rfl
  | cons x xs ih =>
    rw [List.map_cons, h x (by simp), ih (fun y hy => h y (by simp [hy]))]

/-- Helper: how `addToGroups` changes each key's member list. -/
theorem lookupGroup_addToGroups (gs : List (List JVal × List Rec))
    (k : List JVal) (r : Rec) (k2 : List JVal) :
    lookupGroup (addToGroups gs k r) k2 =
      if k2 = k then lookupGroup gs k2 ++ [r] else lookupGroup gs k2 := by
  unfold addToGroups
  by_cases hany : gs.any (fun g => g.1 == k) = true
  · rw [if_pos hany]
    induction gs with
    | nil => simp at hany
    | cons g rest ih =>
      obtain ⟨a, b⟩ := g
      rw [List.map_cons]
      by_cases hg : (a == k) = true
      · have ha : a = k := by simpa using hg
        subst ha
        rw [if_pos hg]
        by_cases h2 : k2 = a
        · subst h2
          rw [lookupGroup_cons, lookupGroup_cons]
          simp
        · have hne : (a == k2) = false := by
            simp
            intro he
            exact h2 he.symm
          rw [lookupGroup_cons, lookupGroup_cons, hne]
          simp only [Bool.false_eq_true, if_false, if_neg h2]
          by_cases hrest : rest.any (fun g => g.1 == a) = true
          · have hih := ih hrest
            rw [if_neg h2] at hih
            exact hih
          · rw [map_eq_self_of rest _ ?hfix]
            case hfix =>
              intro x hx
              have hxf : (x.1 == a) = false := by
                rcases hh : x.1 == a with _ | _
                · rfl
                · exact absurd (List.any_eq_true.mpr ⟨x, hx, hh⟩) hrest
              rw [hxf]
              simp
      · rw [if_neg hg]
        have hrest : rest.any (fun g => g.1 == k) = true := by
          rcases List.any_eq_true.mp hany with ⟨x, hx, hxk⟩
          rcases List.mem_cons.mp hx with rfl | hx2
          · exact absurd hxk hg
          · exact List.any_eq_true.mpr ⟨x, hx2, hxk⟩
        rw [lookupGroup_cons, lookupGroup_cons]
        by_cases h2 : (a == k2) = true
        · have hk2 : ¬ k2 = k := by
            intro he
            apply hg
            rw [he] at h2
            exact h2
          rw [if_pos h2, if_neg hk2, if_pos h2]
        · have h2f : (a == k2) = false := by simpa using h2
          rw [h2f]
          simp only [Bool.false_eq_true, if_false]
          exact ih hrest
  · rw [if_neg hany]
    induction gs with
    | nil =>
      rw [List.nil_append, lookupGroup_cons, lookupGroup_nil]
      by_cases h2 : k2 = k
      · subst h2
        simp
      · have hkf : (k == k2) = false := by
          simp
          intro he
          exact h2 he.symm
        rw [hkf]
        simp [h2, lookupGroup_nil]
    | cons g rest ih =>
      obtain ⟨a, b⟩ := g
      have hga : (a == k) = false := by
        rcases hh : a == k with _ | _
        · rfl
        · exact absurd (List.any_eq_true.mpr ⟨(a, b), by simp, hh⟩) hany
      have hrest : ¬ rest.any (fun g => g.1 == k) = true := by
        intro hr
        rcases List.any_eq_true.mp hr with ⟨x, hx, hxk⟩
        exact hany (List.any_eq_true.mpr ⟨x, by simp [hx], hxk⟩)
      rw [List.cons_append, lookupGroup_cons, lookupGroup_cons]
      by_cases h2 : (a == k2) = true
      · have hk2 : ¬ k2 = k := by
          intro he
          rw [he] at h2
          rw [hga] at h2
          cases h2
        rw [if_pos h2, if_neg hk2, if_pos h2]
      · have h2f : (a == k2) = false := by simpa using h2
        rw [h2f]
        simp only [Bool.false_eq_true, if_false]
        exact ih hrest

/-- Helper: the grouping loop appends, under each key, exactly the records
carrying that key, in order. -/
theorem buildGroupsAux_lookup (ie : Bool) (flds : List String)
    (recs : List Rec) :
    ∀ (gs : List (List JVal × List Rec)) (k : List JVal),
      lookupGroup (buildGroupsAux ie flds gs recs) k =
        lookupGroup gs k ++ recs.filter (fun r => dupKeyOf ie r flds == some k) := by
  induction recs with
  | nil => intro gs k; simp [buildGroupsAux]
  | cons r rest ih =>
    intro gs k
    unfold buildGroupsAux
    cases hk : dupKeyOf ie r flds with
    | none =>
      rw [ih]
      have : (dupKeyOf ie r flds == some k) = false := by simp [hk]
      rw [List.filter_cons, this]
      simp
    | some k0 =>
      rw [ih, lookupGroup_addToGroups]
      by_cases he : k = k0
      · subst he
        have : (dupKeyOf ie r flds == some k) = true := by simp [hk]
        rw [if_pos rfl, List.filter_cons, this]
        simp
      · have : (dupKeyOf ie r flds == some k) = false := by
          simp [hk]
          intro hc
          exact he hc.symm
        rw [if_neg he, List.filter_cons, this]
        simp

/-- Helper: a member of a group after `addToGroups` was already grouped or is
the added record. -/
theorem addToGroups_mem_rec (gs : List (List JVal × List Rec))
    (k : List JVal) (r : Rec) :
    ∀ g ∈ addToGroups gs k r, ∀ x ∈ g.2, (∃ g0 ∈ gs, x ∈ g0.2) ∨ x = r := by
  intro g hg x hx
  unfold addToGroups at hg
  by_cases hany : gs.any (fun q => q.1 == k) = true
  · rw [if_pos hany] at hg
    rcases List.mem_map.mp hg with ⟨g0, hg0, hge⟩
    by_cases hg0k : (g0.1 == k) = true
    · rw [if_pos hg0k] at hge
      rw [← hge] at hx
      rcases List.mem_append.mp hx with hx' | hx'
      · exact Or.inl ⟨g0, hg0, hx'⟩
      · simp at hx'
        exact Or.inr hx'
    · rw [if_neg hg0k] at hge
      rw [← hge] at hx
      exact Or.inl ⟨g0, hg0, hx⟩
  · rw [if_neg hany] at hg
    rcases List.mem_append.mp hg with hg' | hg'
    · exact Or.inl ⟨g, hg', hx⟩
    · simp at hg'
      rw [hg'] at hx
      simp at hx
      exact Or.inr hx

/-- Helper: every grouped record came from the initial groups or from the
scanned records with a defined key. -/
theorem buildGroupsAux_mem_rec (ie : Bool) (flds : List String)
    (recs : List Rec) :
    ∀ gs, ∀ g ∈ buildGroupsAux ie flds gs recs, ∀ x ∈ g.2,
      (∃ g0 ∈ gs, x ∈ g0.2) ∨
      (x ∈ recs ∧ ∃ kx, dupKeyOf ie x flds = some kx) := by
  induction recs with
  | nil =>
    intro gs g hg x hx
    exact Or.inl ⟨g, hg, hx⟩
  | cons r rest ih =>
    intro gs g hg x hx
    unfold buildGroupsAux at hg
    cases hk : dupKeyOf ie r flds with
    | none =>
      rw [hk] at hg
      rcases ih gs g hg x hx with h | h
      · exact Or.inl h
      · exact Or.inr ⟨by simp [h.1], h.2⟩
    | some k0 =>
      rw [hk] at hg
      rcases ih (addToGroups gs k0 r) g hg x hx with ⟨g0, hg0, hx0⟩ | h
      · rcases addToGroups_mem_rec gs k0 r g0 hg0 x hx0 with h' | h'
        · exact Or.inl h'
        · subst h'
          exact Or.inr ⟨by simp, k0, hk⟩
      · exact Or.inr ⟨by simp [h.1], h.2⟩

/-- Helper: a record with an empty compared field gets no key under
`ignore_empty`. -/
theorem dupKeyOf_eq_none (r : Rec) (flds : List String)
    (h : ∃ f ∈ flds, isEmptyVal (fieldOf r f) = true) :
    dupKeyOf true r flds = none := by
  induction flds with
  | nil => rcases h with ⟨f, hf, _⟩; simp at hf
  | cons f rest ih =>
    rcases h with ⟨f0, hf0, he⟩
    rcases List.mem_cons.mp hf0 with rfl | hf0'
    · simp [dupKeyOf, he]
    · unfold dupKeyOf
      by_cases hie : isEmptyVal (fieldOf r f) = true
      · simp [hie]
      · rw [ih ⟨f0, hf0', he⟩]
        simp [hie]

/-- Helper: with all compared fields non-empty, the key is the tuple of
normalised values. -/
theorem dupKeyOf_all_nonempty (r : Rec) (flds : List String)
    (h : ∀ f ∈ flds, isEmptyVal (fieldOf r f) = false) :
    dupKeyOf true r flds = some (flds.map (fun f => normVal (fieldOf r f))) := by
  induction flds with
  | nil => rfl
  | cons f rest ih =>
    have h1 : isEmptyVal (fieldOf r f) = false := h f (by simp)
    have h2 := ih (fun f0 hf0 => h f0 (by simp [hf0]))
    simp [dupKeyOf, h1, h2]

/-- Helper: keys of the group list after `addToGroups`. -/
theorem addToGroups_keys (gs : List (List JVal × List Rec)) (k : List JVal)
    (r : Rec) :
    (addToGroups gs k r).map (·.1) =
      if gs.any (fun g => g.1 == k) then gs.map (·.1)
      else gs.map (·.1) ++ [k] := by
  unfold addToGroups
  by_cases h : gs.any (fun g => g.1 == k) = true
  · rw [if_pos h, if_pos h, List.map_map]
    apply List.map_congr_left
    intro g _
    by_cases hg : g.1 = k <;> simp [hg]
  · rw [if_neg h, if_neg h]
    simp

/-- Helper: the grouping loop keeps group keys distinct. -/
theorem buildGroupsAux_keys_nodup (ie : Bool) (flds : List String)
    (recs : List Rec) :
    ∀ gs, (gs.map (·.1)).Nodup →
      ((buildGroupsAux ie flds gs recs).map (·.1)).Nodup := by
  induction recs with
  | nil => intro gs h; exact h
  | cons r rest ih =>
    intro gs h
    unfold buildGroupsAux
    cases hk : dupKeyOf ie r flds with
    | none => exact ih gs h
    | some k0 =>
      apply ih
      rw [addToGroups_keys]
      by_cases hany : gs.any (fun g => g.1 == k0) = true
      · rw [if_pos hany]; exact h
      · rw [if_neg hany]
        have hk0 : k0 ∉ gs.map (·.1) := by
          intro hmem
          rcases List.mem_map.mp hmem with ⟨g, hg, hge⟩
          exact hany (List.any_eq_true.mpr ⟨g, hg, by simp [hge]⟩)
        simp [List.nodup_append, h, hk0]

/-- Helper: with distinct keys, each group finds itself. -/
theorem lookupGroup_self_of_nodup (gs : List (List JVal × List Rec))
    (hnd : (gs.map (·.1)).Nodup) : ∀ g ∈ gs, lookupGroup gs g.1 = g.2 := by
  induction gs with
  | nil => intro g hg; simp at hg
  | cons a rest ih =>
    intro g hg
    obtain ⟨a1, a2⟩ := a
    rw [List.map_cons, List.nodup_cons] at hnd
    rcases List.mem_cons.mp hg with rfl | hg'
    · rw [lookupGroup_cons]
      simp
    · rw [lookupGroup_cons]
      have hne : (a1 == g.1) = false := by
        rcases hh : a1 == g.1 with _ | _
        · rfl
        · exfalso
          apply hnd.1
          have : a1 = g.1 := by simpa using hh
          rw [this]
          exact List.mem_map.mpr ⟨g, hg', rfl⟩
      rw [hne]
      simp only [Bool.false_eq_true, if_false]
      exact ih hnd.2 g hg'

/-- C6: with `ignore_empty = true`, a record with all compared fields
non-empty is keyed by the tuple of its trimmed-and-lowercased compared
values; each key's group holds exactly the included records with that key;
a record with an empty compared field joins no group; and the duplicate
groups are exactly the keys shared by more than one included record. -/
theorem c6_find_duplicates_grouping (flds : List String) (recs : List Rec) :
    (∀ r ∈ recs, (∀ f ∈ flds, isEmptyVal (fieldOf r f) = false) →
      dupKeyOf true r flds = some (flds.map (fun f => normVal (fieldOf r f)))) ∧
    (∀ k, lookupGroup (buildGroups true flds recs) k =
      recs.filter (fun r => dupKeyOf true r flds == some k)) ∧
    (∀ r ∈ recs, (∃ f ∈ flds, isEmptyVal (fieldOf r f) = true) →
      ∀ g ∈ buildGroups true flds recs, r ∉ g.2) ∧
    (∀ g ∈ duplicateGroups (buildGroups true flds recs),
      (recs.filter (fun r => dupKeyOf true r flds == some g.1)).length > 1) ∧
    (∀ k, (recs.filter (fun r => dupKeyOf true r flds == some k)).length > 1 →
      ∃ g ∈ duplicateGroups (buildGroups true flds recs), g.1 = k) := by
  have hnodup : ((buildGroups true flds recs).map (·.1)).Nodup :=
    buildGroupsAux_keys_nodup true flds recs [] (by simp)
  have hlook : ∀ k, lookupGroup (buildGroups true flds recs) k =
      recs.filter (fun r => dupKeyOf true r flds == some k) := by
    intro k
    unfold buildGroups
    rw [buildGroupsAux_lookup, lookupGroup_nil, List.nil_append]
  refine ⟨?_, hlook, ?_, ?_, ?_⟩
  · intro r _ h
    exact dupKeyOf_all_nonempty r flds h
  · intro r _ hemp g hg hrg
    rcases buildGroupsAux_mem_rec true flds recs [] g hg r hrg with ⟨g0, hg0, _⟩ | h
    · simp at hg0
    · rcases h.2 with ⟨kx, hkx⟩
      rw [dupKeyOf_eq_none r flds hemp] at hkx
      cases hkx
  · intro g hg
    have hmem := List.mem_filter.mp hg
    have hself := lookupGroup_self_of_nodup _ hnodup g hmem.1
    rw [hlook g.1] at hself
    rw [hself]
    simpa using hmem.2
  · intro k hlen
    have hne : lookupGroup (buildGroups true flds recs) k ≠ [] := by
      rw [hlook k]
      intro hz
      rw [hz] at hlen
      simp at hlen
    unfold lookupGroup at hne
    cases hf : (buildGroups true flds recs).find? (fun g => g.1 == k) with
    | none => rw [hf] at hne; simp at hne
    | some g =>
      have hgk : g.1 = k := by
        have := List.find?_some hf
        simpa using this
      have hgmem : g ∈ buildGroups true flds recs := List.mem_of_find?_eq_some hf
      have hg2 : g.2 = recs.filter (fun r => dupKeyOf true r flds == some k) := by
        have hself := lookupGroup_self_of_nodup _ hnodup g hgmem
        rw [hlook g.1, hgk] at hself
        exact hself.symm
      refine ⟨g, ?_, hgk⟩
      unfold duplicateGroups
      apply List.mem_filter.mpr
      refine ⟨hgmem, ?_⟩
      rw [hg2]
      simpa using hlen

/-- C6 witness: "Bob" and "bob " group together under field "Name"; the
record with the empty name joins no group; the shared key is reported as a
duplicate group. -/
theorem c6_find_duplicates_witness :
    lookupGroup (buildGroups true ["Name"] recsDupEx) [JVal.s "bob"] =
      [⟨"rec1", [("Name", .s "Bob")], "t1"⟩,
       ⟨"rec2", [("Name", .s "bob ")], "t2"⟩] ∧
    (∀ g ∈ buildGroups true ["Name"] recsDupEx,
      (⟨"rec3", [("Name", .s "")], "t3"⟩ : Rec) ∉ g.2) ∧
    (∃ g ∈ duplicateGroups (buildGroups true ["Name"] recsDupEx),
      g.1 = [JVal.s "bob"]) := by
  have h := c6_find_duplicates_grouping ["Name"] recsDupEx
  refine ⟨?_, ?_, ?_⟩
  · rw [h.2.1 [JVal.s "bob"]]
    decide
  · exact h.2.2.1 _ (by decide) ⟨"Name", by decide, by decide⟩
  · exact h.2.2.2.2 [JVal.s "bob"] (by decide)

/-- Helper: membership in `upsertStat` means an old entry or the new pair. -/
theorem upsertStat_mem (l : List (String × FieldStat)) (k : String)
    (v : FieldStat) : ∀ p ∈ upsertStat l k v, p ∈ l ∨ p = (k, v) := by
  intro p hp
  unfold upsertStat at hp
  by_cases h : l.any (fun q => q.1 == k) = true
  · rw [if_pos h] at hp
    rcases List.mem_map.mp hp with ⟨q, hq, hqe⟩
    by_cases hqk : (q.1 == k) = true
    · right
      rw [if_pos hqk] at hqe
      rw [← hqe, beq_iff_eq.mp hqk]
    · left
      rw [if_neg hqk] at hqe
      rw [← hqe]
      exact hq
  · rw [if_neg h] at hp
    rcases List.mem_append.mp hp with hp | hp
    · exact Or.inl hp
    · simp at hp
      exact Or.inr hp

/-- Helper: keys after `upsertStat`. -/
theorem upsertStat_keys (l : List (String × FieldStat)) (k : String)
    (v : FieldStat) :
    (upsertStat l k v).map (·.1) =
      if l.any (fun p => p.1 == k) then l.map (·.1) else l.map (·.1) ++ [k] := by
  unfold upsertStat
  by_cases h : l.any (fun p => p.1 == k) = true
  · rw [if_pos h, if_pos h, List.map_map]
    apply List.map_congr_left
    intro p _
    by_cases hp : p.1 = k <;> simp [hp]
  · rw [if_neg h, if_neg h]
    simp

/-- Helper: the field-stats fold only grows the key set. -/
theorem buildFieldStats_keys_mono (recs : List Rec) (fields : List SchemaField) :
    ∀ (init : List (String × FieldStat)) (k0 : String),
      k0 ∈ init.map (·.1) →
      k0 ∈ (fields.foldl
        (fun acc f => upsertStat acc f.name (mkFieldStat recs f)) init).map (·.1) := by
  induction fields with
  | nil => intro init k0 h; exact h
  | cons f rest ih =>
    intro init k0 h
    rw [List.foldl_cons]
    apply ih
    rw [upsertStat_keys]
    by_cases hany : init.any (fun p => p.1 == f.name) = true
    · rw [if_pos hany]; exact h
    · rw [if_neg hany]
      exact List.mem_append.mpr (Or.inl h)

/-- Helper: every entry of `field_stats` carries the fill statistics of its
own field name. -/
theorem buildFieldStats_inv (recs : List Rec) (fields : List SchemaField) :
    ∀ p ∈ buildFieldStats recs fields,
      p.2.fill_rate =
        (if recs.length > 0 then
          round1 ((countFilled recs p.1 : ℚ) / (recs.length : ℚ) * 100)
         else 0) ∧
      p.2.filled_count = countFilled recs p.1 ∧
      p.2.total_records = recs.length := by
  unfold buildFieldStats
  have hgen : ∀ (l : List SchemaField) (init : List (String × FieldStat)),
      (∀ p ∈ init,
        p.2.fill_rate =
          (if recs.length > 0 then
            round1 ((countFilled recs p.1 : ℚ) / (recs.length : ℚ) * 100)
           else 0) ∧
        p.2.filled_count = countFilled recs p.1 ∧
        p.2.total_records = recs.length) →
      ∀ p ∈ l.foldl (fun acc f => upsertStat acc f.name (mkFieldStat recs f)) init,
        p.2.fill_rate =
          (if recs.length > 0 then
            round1 ((countFilled recs p.1 : ℚ) / (recs.length : ℚ) * 100)
           else 0) ∧
        p.2.filled_count = countFilled recs p.1 ∧
        p.2.total_records = recs.length := by
    intro l
    induction l with
    | nil => intro init h p hp; exact h p hp
    | cons f rest ih =>
      intro init hinit p hp
      rw [List.foldl_cons] at hp
      refine ih _ ?_ p hp
      intro q hq
      rcases upsertStat_mem init f.name (mkFieldStat recs f) q hq with hq' | hq'
      · exact hinit q hq'
      · rw [hq']
        refine ⟨?_, rfl, rfl⟩
        unfold mkFieldStat
        rfl
  exact hgen fields [] (by simp)

/-- Helper: every schema field has an entry in `field_stats` under its name. -/
theorem buildFieldStats_covers (recs : List Rec) (fields : List SchemaField) :
    ∀ f ∈ fields, ∃ st, (f.name, st) ∈ buildFieldStats recs fields := by
  unfold buildFieldStats
  have hgen : ∀ (l : List SchemaField) (init : List (String × FieldStat)),
      ∀ f ∈ l, ∃ st, (f.name, st) ∈
        l.foldl (fun acc g => upsertStat acc g.name (mkFieldStat recs g)) init := by
    intro l
    induction l with
    | nil => intro init f hf; simp at hf
    | cons g rest ih =>
      intro init f hf
      rw [List.foldl_cons]
      rcases List.mem_cons.mp hf with rfl | hf'
      · have hk : f.name ∈ (upsertStat init f.name (mkFieldStat recs f)).map (·.1) := by
          rw [upsertStat_keys]
          by_cases hany : init.any (fun p => p.1 == f.name) = true
          · rw [if_pos hany]
            rcases List.any_eq_true.mp hany with ⟨p, hp, hpk⟩
            exact List.mem_map.mpr ⟨p, hp, (beq_iff_eq.mp hpk)⟩
          · rw [if_neg hany]
            exact List.mem_append.mpr (Or.inr (by simp))
        have hk2 := buildFieldStats_keys_mono recs rest _ f.name hk
        rcases List.mem_map.mp hk2 with ⟨p, hp, hpe⟩
        refine ⟨p.2, ?_⟩
        rw [← hpe] at hp ⊢
        simpa using hp
      · exact ih _ f hf'
  exact hgen fields []

/-- C7: on a non-empty sample every reported field statistic has
fill rate `round1(filled/total×100)` with `filled` counting the records
whose value is neither None nor ""; every schema field is reported; and
fields with rate < 50, = 0, = 100 appear in the low-completion, unused and
complete insight lists respectively. -/
theorem c7_analyze_table_data_fill_rates (tableName : String)
    (schemaFields : List SchemaField) (recs : List Rec) (hne : recs ≠ []) :
    (∀ p ∈ (analyzeTableData tableName schemaFields recs).field_analysis,
      p.2.fill_rate = round1 ((countFilled recs p.1 : ℚ) / (recs.length : ℚ) * 100) ∧
      p.2.filled_count = countFilled recs p.1 ∧
      p.2.total_records = recs.length) ∧
    (∀ f ∈ schemaFields, ∃ st,
      (f.name, st) ∈ (analyzeTableData tableName schemaFields recs).field_analysis) ∧
    (∀ p ∈ (analyzeTableData tableName schemaFields recs).field_analysis,
      (p.2.fill_rate < 50 →
        p.1 ∈ lowFillFields (analyzeTableData tableName schemaFields recs).field_analysis) ∧
      (p.2.fill_rate = 0 →
        p.1 ∈ unusedFields (analyzeTableData tableName schemaFields recs).field_analysis) ∧
      (p.2.fill_rate = 100 →
        p.1 ∈ completeFields (analyzeTableData tableName schemaFields recs).field_analysis)) ∧
    (analyzeTableData tableName schemaFields recs).data_quality_insights =
      dataQualityInsights (analyzeTableData tableName schemaFields recs).field_analysis := by
  have hlen : recs.length > 0 := by
    cases recs with
    | nil => simp at hne
    | cons x xs => simp
  have hfa : (analyzeTableData tableName schemaFields recs).field_analysis =
      buildFieldStats recs schemaFields := rfl
  refine ⟨?_, ?_, ?_, rfl⟩
  · intro p hp
    rw [hfa] at hp
    have h := buildFieldStats_inv recs schemaFields p hp
    rw [if_pos hlen] at h
    exact h
  · intro f hf
    rw [hfa]
    exact buildFieldStats_covers recs schemaFields f hf
  · intro p hp
    refine ⟨?_, ?_, ?_⟩
    · intro hrate
      unfold lowFillFields
      exact List.mem_map.mpr
        ⟨p, List.mem_filter.mpr ⟨hp, by simp [hrate]⟩, rfl⟩
    · intro hrate
      unfold unusedFields
      exact List.mem_map.mpr
        ⟨p, List.mem_filter.mpr ⟨hp, by simp [hrate]⟩, rfl⟩
    · intro hrate
      unfold completeFields
      exact List.mem_map.mpr
        ⟨p, List.mem_filter.mpr ⟨hp, by simp [hrate]⟩, rfl⟩

/-- C7 witness: 3 of 10 records have "Email" filled; the reported fill rate
is 30.0 and "Email" lands in the low-completion list. -/
theorem c7_analyze_table_data_witness :
    ∃ st : FieldStat,
      ("Email", st) ∈
        (analyzeTableData "T" [⟨"Email", "email"⟩] recsAnalyzeEx).field_analysis ∧
      st.fill_rate = 30 ∧
      "Email" ∈ lowFillFields
        (analyzeTableData "T" [⟨"Email", "email"⟩] recsAnalyzeEx).field_analysis := by
  have h := c7_analyze_table_data_fill_rates "T" [⟨"Email", "email"⟩]
    recsAnalyzeEx (by decide)
  rcases h.2.1 ⟨"Email", "email"⟩ (by simp) with ⟨st, hst⟩
  have hc : countFilled recsAnalyzeEx "Email" = 3 := by decide
  have hl : recsAnalyzeEx.length = 10 := by decide
  have hrate := (h.1 ("Email", st) hst).1
  rw [hc, hl] at hrate
  have hval : st.fill_rate = 30 := by
    rw [hrate]
    norm_num [round1, roundHalfEven]
  refine ⟨st, hst, hval, ?_⟩
  exact (h.2.2.1 ("Email", st) hst).1 (by rw [hval]; norm_num)

/-- C9: exporting a non-empty record list yields the CSV whose header row is
"Record ID", the exported fields (defaulting to the first record's field
keys), then "Created Time"; each data cell joins lists with ", ", renders
null/missing as "", and quotes delimiter-bearing cells; the response carries
the full CSV and its six-line preview. -/
theorem c9_export_csv_shape (env : GwRecEnv) (b t : String)
    (fieldsArg : Option (List String)) (view : Option String) (maxr : Nat)
    (recs : List Rec) (henv : env (exportCsvCall b t view maxr) = .ok recs)
    (hne : recs ≠ []) :
    ∃ resp : ExportCsvResponse,
      handle_export_table_csv env b t fieldsArg view maxr =
        ([exportCsvCall b t view maxr], .ok (.payload resp)) ∧
      resp.fields_exported = exportedFields fieldsArg recs ∧
      ((fieldsArg = none ∨ fieldsArg = some []) → ∀ r0 rest, recs = r0 :: rest →
        resp.fields_exported = keysOf r0.fields) ∧
      resp.full_csv_data =
        csvRow (["Record ID"] ++ resp.fields_exported ++ ["Created Time"]) ++
        String.join (recs.map (fun r =>
          csvRow ([r.id] ++ resp.fields_exported.map
            (fun f => renderCell (lookupJ r.fields f)) ++ [r.createdTime]))) ∧
      resp.csv_preview =
        "\n".intercalate ((pySplitNl resp.full_csv_data).take 6) ∧
      resp.record_count = recs.length ∧
      (∀ cell : String, csvNeedsQuote cell = true →
        csvQuote cell = "\"" ++ csvEscapeQuotes cell ++ "\"") ∧
      (∀ vs : List JVal, renderCell (some (.arr vs)) = ", ".intercalate (vs.map pyStr)) ∧
      renderCell none = "" ∧
      renderCell (some .null) = "" := by
  have hie : recs.isEmpty = false := by
    cases recs with
    | nil => simp at hne
    | cons x xs => rfl
  unfold handle_export_table_csv
  rw [henv]
  simp only [hie, Bool.false_eq_true, if_false]
  refine ⟨_, rfl, rfl, ?_, rfl, rfl, rfl, ?_, ?_, rfl, rfl⟩
  · intro hfa r0 rest hrecs
    subst hrecs
    rcases hfa with rfl | rfl <;> rfl
  · intro cell h
    unfold csvQuote
    rw [if_pos h]
  · intro vs
    rfl

/-- C9 witness: two records whose field "A" is "x,y"; the header row is
`Record ID,A,Created Time` and the comma-bearing value survives as one
quoted cell. -/
theorem c9_export_csv_witness :
    ∃ resp : ExportCsvResponse,
      handle_export_table_csv envCsvEx "b" "t" none none 1000 =
        ([exportCsvCall "b" "t" none 1000], .ok (.payload resp)) ∧
      resp.fields_exported = ["A"] ∧
      resp.full_csv_data =
        "Record ID,A,Created Time\r\n" ++
        "rec1,\"x,y\",t1\r\n" ++
        "rec2,\"x,y\",t2\r\n" ∧
      resp.csv_preview =
        "Record ID,A,Created Time\r" ++ "\n" ++
        "rec1,\"x,y\",t1\r" ++ "\n" ++
        "rec2,\"x,y\",t2\r" ++ "\n" := by
  rcases c9_export_csv_shape envCsvEx "b" "t" none none 1000
      [⟨"rec1", [("A", .s "x,y")], "t1"⟩, ⟨"rec2", [("A", .s "x,y")], "t2"⟩]
      rfl (by decide) with
    ⟨resp, h1, h2, h3, h4, h5, h6, h7, h8, h9, h10⟩
  have hfe : resp.fields_exported = ["A"] := by rw [h2]; rfl
  have hfull : resp.full_csv_data =
      "Record ID,A,Created Time\r\n" ++
      "rec1,\"x,y\",t1\r\n" ++
      "rec2,\"x,y\",t2\r\n" := by
    rw [h4, hfe]
    decide
  refine ⟨resp, h1, hfe, hfull, ?_⟩
  rw [h5, hfull]
  decide

end MCPServer
